import Mathlib

/-!
Verification development for the mockapi repository.

The definitions below are a shallow embedding of the Python sources:
`mockapi/server.py` (Flask CRUD handlers and their helpers),
`mockapi/validate.py` (the data-quality validator) and the hot-reload
watcher of `mockapi/cli.py`.  JSON values are modelled by the inductive
type `Json` (numbers restricted to integers, which covers every value the
claims mention), Python dicts by insertion-ordered association lists, and
the Flask handlers by pure functions from the server state to a response
together with the successor state and a flag recording whether `save_db`
was invoked.
-/

/-- JSON values as manipulated by the server: null, booleans, (integer)
numbers, strings, arrays and objects.  Objects are insertion-ordered
association lists, mirroring Python dicts. -/
inductive Json where
  | null
  | bool (b : Bool)
  | num (n : Int)
  | str (s : String)
  | arr (elems : List Json)
  | obj (fields : List (String × Json))

mutual
/-- Decidable equality on `Json` (the automatic derivation does not handle
the nested `List` occurrences on this toolchain). -/
def Json.decEq : (a b : Json) → Decidable (a = b)
  | .null, .null => isTrue rfl
  | .null, .bool _ => isFalse (fun h => Json.noConfusion h)
  | .null, .num _ => isFalse (fun h => Json.noConfusion h)
  | .null, .str _ => isFalse (fun h => Json.noConfusion h)
  | .null, .arr _ => isFalse (fun h => Json.noConfusion h)
  | .null, .obj _ => isFalse (fun h => Json.noConfusion h)
  | .bool _, .null => isFalse (fun h => Json.noConfusion h)
  | .bool a, .bool b =>
    match instDecidableEqBool a b with
    | isTrue h => isTrue (congrArg Json.bool h)
    | isFalse h => isFalse (fun he => h (Json.bool.inj he))
  | .bool _, .num _ => isFalse (fun h => Json.noConfusion h)
  | .bool _, .str _ => isFalse (fun h => Json.noConfusion h)
  | .bool _, .arr _ => isFalse (fun h => Json.noConfusion h)
  | .bool _, .obj _ => isFalse (fun h => Json.noConfusion h)
  | .num _, .null => isFalse (fun h => Json.noConfusion h)
  | .num _, .bool _ => isFalse (fun h => Json.noConfusion h)
  | .num a, .num b =>
    match Int.decEq a b with
    | isTrue h => isTrue (congrArg Json.num h)
    | isFalse h => isFalse (fun he => h (Json.num.inj he))
  | .num _, .str _ => isFalse (fun h => Json.noConfusion h)
  | .num _, .arr _ => isFalse (fun h => Json.noConfusion h)
  | .num _, .obj _ => isFalse (fun h => Json.noConfusion h)
  | .str _, .null => isFalse (fun h => Json.noConfusion h)
  | .str _, .bool _ => isFalse (fun h => Json.noConfusion h)
  | .str _, .num _ => isFalse (fun h => Json.noConfusion h)
  | .str a, .str b =>
    match String.decEq a b with
    | isTrue h => isTrue (congrArg Json.str h)
    | isFalse h => isFalse (fun he => h (Json.str.inj he))
  | .str _, .arr _ => isFalse (fun h => Json.noConfusion h)
  | .str _, .obj _ => isFalse (fun h => Json.noConfusion h)
  | .arr _, .null => isFalse (fun h => Json.noConfusion h)
  | .arr _, .bool _ => isFalse (fun h => Json.noConfusion h)
  | .arr _, .num _ => isFalse (fun h => Json.noConfusion h)
  | .arr _, .str _ => isFalse (fun h => Json.noConfusion h)
  | .arr xs, .arr ys =>
    match Json.decEqList xs ys with
    | isTrue h => isTrue (congrArg Json.arr h)
    | isFalse h => isFalse (fun he => h (Json.arr.inj he))
  | .arr _, .obj _ => isFalse (fun h => Json.noConfusion h)
  | .obj _, .null => isFalse (fun h => Json.noConfusion h)
  | .obj _, .bool _ => isFalse (fun h => Json.noConfusion h)
  | .obj _, .num _ => isFalse (fun h => Json.noConfusion h)
  | .obj _, .str _ => isFalse (fun h => Json.noConfusion h)
  | .obj _, .arr _ => isFalse (fun h => Json.noConfusion h)
  | .obj fs, .obj gs =>
    match Json.decEqFields fs gs with
    | isTrue h => isTrue (congrArg Json.obj h)
    | isFalse h => isFalse (fun he => h (Json.obj.inj he))

/-- Decidable equality on lists of `Json`. -/
def Json.decEqList : (xs ys : List Json) → Decidable (xs = ys)
  | [], [] => isTrue rfl
  | [], _ :: _ => isFalse (fun h => List.noConfusion h)
  | _ :: _, [] => isFalse (fun h => List.noConfusion h)
  | x :: xs, y :: ys =>
    match Json.decEq x y with
    | isFalse h1 => isFalse (fun he => h1 (List.cons.inj he).1)
    | isTrue h1 =>
      match Json.decEqList xs ys with
      | isTrue h2 => isTrue (by rw [h1, h2])
      | isFalse h2 => isFalse (fun he => h2 (List.cons.inj he).2)

/-- Decidable equality on `Json` object field lists. -/
def Json.decEqFields : (fs gs : List (String × Json)) → Decidable (fs = gs)
  | [], [] => isTrue rfl
  | [], _ :: _ => isFalse (fun h => List.noConfusion h)
  | _ :: _, [] => isFalse (fun h => List.noConfusion h)
  | (k1, v1) :: fs, (k2, v2) :: gs =>
    match String.decEq k1 k2 with
    | isFalse h1 =>
      isFalse (fun he => h1 (congrArg Prod.fst (List.cons.inj he).1))
    | isTrue h1 =>
      match Json.decEq v1 v2 with
      | isFalse h2 =>
        isFalse (fun he => h2 (congrArg Prod.snd (List.cons.inj he).1))
      | isTrue h2 =>
        match Json.decEqFields fs gs with
        | isTrue h3 => isTrue (by rw [h1, h2, h3])
        | isFalse h3 => isFalse (fun he => h3 (List.cons.inj he).2)
end

instance : DecidableEq Json := Json.decEq

/-- First-match lookup in an association list (Python `d[k]` / `d.get(k)`
on dicts, whose keys are unique). -/
def assocGet? {α : Type} (l : List (String × α)) (k : String) : Option α :=
  match l with
  | [] => none
  | p :: rest => if p.1 = k then some p.2 else assocGet? rest k

/-- Python `d.get(k, dflt)`. -/
def assocGetD {α : Type} (l : List (String × α)) (k : String) (d : α) : α :=
  (assocGet? l k).getD d

/-- Python `d[k] = v` on a dict: update in place if the key exists,
otherwise append (insertion order). -/
def assocSet {α : Type} (l : List (String × α)) (k : String) (v : α) :
    List (String × α) :=
  match l with
  | [] => [(k, v)]
  | p :: rest => if p.1 = k then (k, v) :: rest else p :: assocSet rest k v

/-- Python `isinstance(v, dict)`. -/
def Json.isObj : Json → Bool
  | .obj _ => true
  | _ => false

mutual
/-- Python `repr` of a value (string quoting simplified to bare
single-quote wrapping; the claims only stringify scalars). -/
def pyRepr : Json → String
  | .null => "None"
  | .bool true => "True"
  | .bool false => "False"
  | .num n => toString n
  | .str s => "\x27" ++ s ++ "\x27"
  | .arr xs => "[" ++ String.intercalate ", " (pyReprList xs) ++ "]"
  | .obj fs => "\x7b" ++ String.intercalate ", " (pyReprFields fs) ++ "\x7d"

/-- `repr` of each element of a list. -/
def pyReprList : List Json → List String
  | [] => []
  | x :: xs => pyRepr x :: pyReprList xs

/-- `repr` of each binding of a dict. -/
def pyReprFields : List (String × Json) → List String
  | [] => []
  | f :: fs => ("\x27" ++ f.1 ++ "\x27: " ++ pyRepr f.2) :: pyReprFields fs
end

/-- Python `str`: identical to `repr` except on strings, which print
without quotes. -/
def pyStr : Json → String
  | .str s => s
  | v => pyRepr v

/-- Python `type(v).__name__` for JSON-compatible values. -/
def typeName : Json → String
  | .null => "NoneType"
  | .bool _ => "bool"
  | .num _ => "int"
  | .str _ => "str"
  | .arr _ => "list"
  | .obj _ => "dict"

/-- Strip leading and trailing whitespace (Python `int` tolerates it). -/
def stripChars (cs : List Char) : List Char :=
  ((cs.dropWhile Char.isWhitespace).reverse.dropWhile Char.isWhitespace).reverse

/-- Numeric value of a decimal digit character. -/
def digitVal (c : Char) : Nat := c.toNat - 48

/-- Digits of a decimal literal after the first one; Python allows single
underscores between digits. -/
def parseDigitsAux : List Char → Nat → Option Nat
  | [], acc => some acc
  | '_' :: rest, acc =>
    match rest with
    | [] => none
    | d :: rest2 =>
      if d.isDigit then parseDigitsAux rest2 (acc * 10 + digitVal d) else none
  | c :: rest, acc =>
    if c.isDigit then parseDigitsAux rest (acc * 10 + digitVal c) else none

/-- A decimal literal: at least one digit. -/
def parseDigitsStart (cs : List Char) : Option Nat :=
  match cs with
  | c :: rest => if c.isDigit then parseDigitsAux rest (digitVal c) else none
  | [] => none

/-- Python `int(s)` for a string argument: optional surrounding
whitespace, optional sign, decimal digits; `none` models the `ValueError`
raised on anything else. -/
def pyInt? (s : String) : Option Int :=
  match stripChars s.data with
  | '+' :: rest => (parseDigitsStart rest).map (fun n => (n : Int))
  | '-' :: rest => (parseDigitsStart rest).map (fun n => -(n : Int))
  | cs => (parseDigitsStart cs).map (fun n => (n : Int))

/-- Response of a handler, stripped of HTTP encoding: the success payloads
and the structured error results of `server.py`. -/
inductive Resp where
  | okItem (item : Json)
  | okList (items : List Json)
  | created (item : Json)
  | invalidName
  | collectionNotFound
  | notAList
  | itemNotFound
  | badBody
deriving DecidableEq

/-- Characters admitted by the collection-name pattern `[a-zA-Z0-9_-]`. -/
def isWordChar (c : Char) : Bool := c.isAlphanum || c = '_' || c = '-'

/-- Python `re.match(r'^[a-zA-Z0-9_-]+$', s) is not None`: the `$` anchor
also matches just before one trailing newline. -/
def reWordLineMatch (s : String) : Bool :=
  let cs := s.data
  let core := if cs.getLast? = some '\n' then cs.dropLast else cs
  !core.isEmpty && core.all isWordChar

/-- `validate_collection_name` of server.py. -/
def validate_collection_name (collection : String) : Bool :=
  if collection.length = 0 || collection.length > 50 then false
  else reWordLineMatch collection

/-- The `value` argument of `safe_int_param`: `request.args.get` yields a
string or `None`, and the `_limit` call site passes the int `10` as the
absent-key default. -/
inductive PyParam where
  | noneV
  | strV (s : String)
  | intV (n : Int)

/-- The range checks of `safe_int_param` once `int(value)` succeeded. -/
def boundCheck (result : Int) (dflt : Option Int)
    (minVal maxVal : Option Int) : Option Int :=
  if minVal.any (fun m => decide (result < m)) then dflt
  else if maxVal.any (fun m => decide (m < result)) then dflt
  else some result

/-- `safe_int_param` of server.py: coerce to int (`int(None)` raises, a
string parses or raises, an int passes through), falling back to the
default on a parse failure or an out-of-range value. -/
def safe_int_param : PyParam → Option Int → Option Int → Option Int →
    Option Int
  | .noneV, dflt, _, _ => dflt
  | .strV s, dflt, minVal, maxVal =>
    match pyInt? s with
    | none => dflt
    | some result => boundCheck result dflt minVal maxVal
  | .intV n, dflt, minVal, maxVal => boundCheck n dflt minVal maxVal

/-- One step of the filtering loop of `list_items`: keep the dict records
whose stringified field `key` (absent fields read as the empty string)
equals the query value. -/
def filterStep (items : List Json) (key val : String) : List Json :=
  items.filter (fun i =>
    match i with
    | .obj fs => pyStr (assocGetD fs key (.str "")) == val
    | _ => false)

/-- The two `continue` guards of the filtering loop: reserved keys start
with an underscore (Python `key.startswith('_')`, i.e. the first
character is an underscore), and keys longer than 50 characters are
ignored. -/
def ignoredKey (k : String) : Bool :=
  (match k.data with
   | c :: _ => c == '_'
   | [] => false) || k.length > 50

/-- The filtering loop of `list_items`: every query pair is applied in
order, skipping the ignored keys. -/
def applyFilters (items : List Json) (args : List (String × String)) :
    List Json :=
  args.foldl (fun acc kv =>
    if ignoredKey kv.1 then acc
    else filterStep acc kv.1 kv.2) items

/-- Python list slicing `xs[start:stop]` (negative indices count from the
end, all indices are clamped to the list). -/
def pySlice (xs : List Json) (start stop : Int) : List Json :=
  let n : Int := xs.length
  let clamp : Int → Int := fun i => if i < 0 then max (n + i) 0 else min i n
  ((xs.take (clamp stop).toNat).drop (clamp start).toNat)

/-- The pagination tail of `list_items`: `if page: ... elif limit: ...`
with Python truthiness on the two values (`page` is `None` or an int). -/
def paginate (filtered : List Json) (page : Option Int) (limit : Int) :
    List Json :=
  match page with
  | some p =>
    if p ≠ 0 then pySlice filtered ((p - 1) * limit) ((p - 1) * limit + limit)
    else if limit ≠ 0 then pySlice filtered 0 limit
    else filtered
  | none =>
    if limit ≠ 0 then pySlice filtered 0 limit
    else filtered

/-- `request.args.get('_page')` as fed to `safe_int_param`. -/
def pageParam (args : List (String × String)) : PyParam :=
  match assocGet? args "_page" with
  | some s => .strV s
  | none => .noneV

/-- `request.args.get('_limit', 10)` as fed to `safe_int_param`. -/
def limitParam (args : List (String × String)) : PyParam :=
  match assocGet? args "_limit" with
  | some s => .strV s
  | none => .intV 10

/-- The `page` value computed by `list_items`. -/
def pageOf (args : List (String × String)) : Option Int :=
  safe_int_param (pageParam args) none (some 1) (some 1000)

/-- The `limit` value computed by `list_items`; the default `10` of
`safe_int_param` means the result is always an int (`limitOf_mem_range`
below), so the `getD` placeholder is never exercised. -/
def limitOf (args : List (String × String)) : Int :=
  (safe_int_param (limitParam args) (some 10) (some 1) (some 100)).getD 10

/-- `list_items` of server.py (GET /collection). -/
def list_items (db : List (String × Json)) (collection : String)
    (args : List (String × String)) : Resp :=
  if !validate_collection_name collection then .invalidName
  else match assocGet? db collection with
  | none => .collectionNotFound
  | some (.arr items) =>
      .okList (paginate (applyFilters items args) (pageOf args) (limitOf args))
  | some _ => .notAList

/-- Python `item.get('id') == item_id` where `item_id` is the int path
segment: `None` never equals an int, and `True`/`False` equal `1`/`0`. -/
def pyEqInt (v : Json) (n : Int) : Bool :=
  match v with
  | .num m => m == n
  | .bool b => (if b then (1 : Int) else 0) == n
  | _ => false

/-- The record-matching test shared by `get_item`, `update_item` and
`delete_item`: a dict whose `id` field equals the path id. -/
def matchesId (item : Json) (item_id : Int) : Bool :=
  match item with
  | .obj fs =>
    match assocGet? fs "id" with
    | some v => pyEqInt v item_id
    | none => false
  | _ => false

/-- `get_item` of server.py (GET /collection/id). -/
def get_item (db : List (String × Json)) (collection : String)
    (item_id : Int) : Resp :=
  if !validate_collection_name collection then .invalidName
  else match assocGet? db collection with
  | none => .collectionNotFound
  | some (.arr items) =>
      match items.find? (fun i => matchesId i item_id) with
      | some item => .okItem item
      | none => .itemNotFound
  | some _ => .notAList

/-- The mutable state closed over by `create_app`: the document `db` and
the per-collection id counters. -/
structure ServerState where
  db : List (String × Json)
  counters : List (String × Int)
deriving DecidableEq

/-- A request body as seen through `validate_json_request`: `invalid`
covers a wrong content type, unparseable JSON and a JSON `null`. -/
inductive Body where
  | invalid
  | json (j : Json)

/-- `validate_json_request` of server.py reduced to its outcome: the field
list of an object body, or a 400 rejection. -/
def bodyObj? (b : Body) : Option (List (String × Json)) :=
  match b with
  | .json (.obj fs) => some fs
  | _ => none

/-- Outcome of a mutating handler: the response, the successor state, and
whether `save_db` ran (modelled as always succeeding; its I/O failure
branch is outside this embedding). -/
structure MutResult where
  resp : Resp
  state : ServerState
  persisted : Bool
deriving DecidableEq

/-- `create_item` of server.py (POST /collection).  When the collection is
absent the handler first installs an empty list and a zero counter, so the
new record always gets id `counters[collection] + 1` (which is `1` on the
fresh-collection path). -/
def create_item (s : ServerState) (collection : String) (body : Body) :
    MutResult :=
  if !validate_collection_name collection then ⟨.invalidName, s, false⟩
  else match bodyObj? body with
  | none => ⟨.badBody, s, false⟩
  | some data =>
    match assocGet? s.db collection with
    | none =>
        let item := assocSet data "id" (.num 1)
        ⟨.created (.obj item),
         ⟨assocSet s.db collection (.arr [Json.obj item]),
          assocSet s.counters collection 1⟩, true⟩
    | some (.arr items) =>
        let newId := assocGetD s.counters collection 0 + 1
        let item := assocSet data "id" (.num newId)
        ⟨.created (.obj item),
         ⟨assocSet s.db collection (.arr (items ++ [Json.obj item])),
          assocSet s.counters collection newId⟩, true⟩
    | some _ => ⟨.notAList, s, false⟩

/-- The replacement loop of `update_item`: swap the first record matching
the id for the new one, leaving everything else in place. -/
def replaceFirst (items : List Json) (item_id : Int) (newItem : Json) :
    Option (List Json) :=
  match items with
  | [] => none
  | x :: rest =>
    if matchesId x item_id then some (newItem :: rest)
    else (replaceFirst rest item_id newItem).map (fun ys => x :: ys)

/-- `update_item` of server.py (PUT /collection/id): note the body is
validated only after the collection existence and shape checks. -/
def update_item (s : ServerState) (collection : String) (item_id : Int)
    (body : Body) : MutResult :=
  if !validate_collection_name collection then ⟨.invalidName, s, false⟩
  else match assocGet? s.db collection with
  | none => ⟨.collectionNotFound, s, false⟩
  | some (.arr items) =>
      match bodyObj? body with
      | none => ⟨.badBody, s, false⟩
      | some data =>
        match replaceFirst items item_id
            (Json.obj (assocSet data "id" (.num item_id))) with
        | some newItems =>
            ⟨.okItem (Json.obj (assocSet data "id" (.num item_id))),
             ⟨assocSet s.db collection (.arr newItems), s.counters⟩, true⟩
        | none => ⟨.itemNotFound, s, false⟩
  | some _ => ⟨.notAList, s, false⟩

/-- The removal loop of `delete_item`: pop the first record matching the
id. -/
def popFirst (items : List Json) (item_id : Int) :
    Option (Json × List Json) :=
  match items with
  | [] => none
  | x :: rest =>
    if matchesId x item_id then some (x, rest)
    else (popFirst rest item_id).map (fun p => (p.1, x :: p.2))

/-- `delete_item` of server.py (DELETE /collection/id). -/
def delete_item (s : ServerState) (collection : String) (item_id : Int) :
    MutResult :=
  if !validate_collection_name collection then ⟨.invalidName, s, false⟩
  else match assocGet? s.db collection with
  | none => ⟨.collectionNotFound, s, false⟩
  | some (.arr items) =>
      match popFirst items item_id with
      | some (deleted, rest) =>
          ⟨.okItem deleted,
           ⟨assocSet s.db collection (.arr rest), s.counters⟩, true⟩
      | none => ⟨.itemNotFound, s, false⟩
  | some _ => ⟨.notAList, s, false⟩

/-- The structured error responses of the mapper (claim C5 enumerates
exactly these). -/
def Resp.isErr : Resp → Bool
  | .invalidName => true
  | .collectionNotFound => true
  | .notAList => true
  | .itemNotFound => true
  | .badBody => true
  | _ => false

/-- Python `i.get('id', 0)` interpreted as an integer for the counter
computation: booleans count as 0/1 (they are ints in Python); any other
type makes the counter arithmetic ill-typed, modelled as `none`. -/
def idAsInt? : Json → Option Int
  | .num n => some n
  | .bool b => some (if b then 1 else 0)
  | _ => none

/-- The values `i.get('id', 0)` ranged over by the generator of
`load_db`, restricted to the dict entries of the collection. -/
def idVals (items : List Json) : List Json :=
  items.filterMap (fun i =>
    match i with
    | .obj fs => some (assocGetD fs "id" (.num 0))
    | _ => none)

/-- The integer readings of a list of id values; `none` as soon as one of
them is not integer-like. -/
def idIntList? : List Json → Option (List Int)
  | [] => some []
  | v :: rest =>
    match idAsInt? v, idIntList? rest with
    | some n, some ns => some (n :: ns)
    | _, _ => none

/-- Python `max(vals, default=0)` over integer-like values: the default
applies only to an empty sequence; `none` models the `TypeError` raised
by `max` or by the later `+= 1` when some id is not integer-like. -/
def maxIdVals? (vals : List Json) : Option Int :=
  match idIntList? vals with
  | some [] => some 0
  | some (n :: ns) => some (ns.foldl max n)
  | none => none

/-- The counter `load_db` installs for a list-valued collection:
`max((i.get('id', 0) for i in items if isinstance(i, dict)), default=0)`. -/
def loadCounter (items : List Json) : Option Int :=
  maxIdVals? (idVals items)

/-- The counter-initialization loop of `load_db` over a parsed document:
list collections get `loadCounter`, every other value gets 0. -/
def loadState (doc : List (String × Json)) : Option ServerState := do
  let counters ← doc.mapM (fun p =>
    match p.2 with
    | Json.arr items => (loadCounter items).map (fun m => (p.1, m))
    | _ => some (p.1, (0 : Int)))
  some ⟨doc, counters⟩

/-- The integer ids actually present in a collection's dict records (used
to state what "existing ids" the allocator must stay above). -/
def loadedIds (items : List Json) : List Int :=
  items.filterMap (fun i =>
    match i with
    | .obj fs => (assocGet? fs "id").bind idAsInt?
    | _ => none)

/-- Modelled from the spec words `max(existing ids, default 0)`: the
maximum of the ids present in the collection, `0` only when there are
none.  Kept separate from `loadCounter` (the code's formula) so the two
can be compared. -/
def specMaxExistingIdsDefault0 (items : List Json) : Int :=
  match loadedIds items with
  | [] => 0
  | v :: vs => vs.foldl max v

/-- The single-collection operations claim C1 quantifies over. -/
inductive ColOp where
  | create (body : List (String × Json))
  | delete (item_id : Int)

/-- Run one operation against the server, returning the successor state
and the id assigned by a successful Create (`none` otherwise). -/
def applyColOp (s : ServerState) (c : String) : ColOp → ServerState × Option Int
  | .create body =>
    ((create_item s c (.json (.obj body))).state,
     match (create_item s c (.json (.obj body))).resp with
     | .created (.obj fs) => (assocGet? fs "id").bind idAsInt?
     | _ => none)
  | .delete i => ((delete_item s c i).state, none)

/-- Run a sequence of operations, returning the final state and the list
of ids assigned by the successful Creates, in order. -/
def runOps (s : ServerState) (c : String) : List ColOp → ServerState × List Int
  | [] => (s, [])
  | op :: ops =>
    let step := applyColOp s c op
    let rest := runOps step.1 c ops
    (rest.1, step.2.toList ++ rest.2)

/-- The state `load_db` produces for a document with the single
list-valued collection `c` whose counter came out as `m`. -/
def initState (c : String) (items : List Json) (m : Int) : ServerState :=
  ⟨[(c, Json.arr items)], [(c, m)]⟩

/-- The Flask application as the watcher thread sees it: the closure
state of `create_app` plus the `app.config` entry the watcher writes. -/
structure AppFull where
  db : List (String × Json)
  counters : List (String × Int)
  configDbData : Option Json
deriving DecidableEq

/-- The reload step of `_start_watcher` in cli.py after a changed mtime
and a successful re-parse: `app.config["DB_DATA"] = data` and nothing
else. -/
def watcher_reload (a : AppFull) (newData : Json) : AppFull :=
  { a with configDbData := some newData }

/-- A GET /collection request served by the application: the handler
closes over `db`, not over `app.config`. -/
def app_list_items (a : AppFull) (collection : String)
    (args : List (String × String)) : Resp :=
  list_items a.db collection args

/-- Python `'id' in r` for the record values the validator walks over:
membership on dicts and lists, substring on strings, `TypeError` (as
`Except.error`) on scalars. -/
def pyContainsId : Json → Except String Bool
  | .obj fs => .ok (assocGet? fs "id").isSome
  | .arr xs => .ok (xs.contains (.str "id"))
  | .str s => .ok (decide ((s.splitOn "id").length > 1))
  | _ => .error "TypeError: argument is not iterable"

/-- Python `r['id']`: dict lookup that raises `KeyError` when absent, and
`TypeError` on anything that is not a dict. -/
def pyIndexId : Json → Except String Json
  | .obj fs =>
    match assocGet? fs "id" with
    | some v => .ok v
    | none => .error "KeyError: id"
  | _ => .error "TypeError: value is not subscriptable"

/-- Python `r.items()`: the field list of a dict, `AttributeError`
otherwise. -/
def pyItems : Json → Except String (List (String × Json))
  | .obj fs => .ok fs
  | _ => .error "AttributeError: items"

/-- The count `sum(1 for r in records if 'id' not in r)` of validate_db. -/
def countMissingId : List Json → Except String Nat
  | [] => .ok 0
  | r :: rest => do
    let b ← pyContainsId r
    let n ← countMissingId rest
    .ok (if b then n else n + 1)

/-- The list `[r['id'] for r in records if 'id' in r]` of validate_db. -/
def collectIds : List Json → Except String (List Json)
  | [] => .ok []
  | r :: rest => do
    let b ← pyContainsId r
    if b then do
      let v ← pyIndexId r
      let tl ← collectIds rest
      .ok (v :: tl)
    else collectIds rest

/-- Hashability of a JSON value as a Python set element: lists and dicts
are unhashable. -/
def pyHashable : Json → Bool
  | .arr _ => false
  | .obj _ => false
  | _ => true

/-- Python `==` on the hashable JSON scalars; booleans equal their
integer values, as in Python. -/
def pyEqScalar : Json → Json → Bool
  | .null, .null => true
  | .bool a, .bool b => a == b
  | .bool a, .num n => (if a then (1 : Int) else 0) == n
  | .num n, .bool b => n == (if b then (1 : Int) else 0)
  | .num a, .num b => a == b
  | .str a, .str b => a == b
  | _, _ => false

/-- The seen/dupes loop of validate_db.  Python sets hash their
elements, so `rid in seen` raises TypeError on an unhashable id (a list
or a dict); otherwise the ids occurring at least twice are collected,
first duplicate occurrence first, membership decided by Python
equality. -/
def dupLoop : List Json → List Json → List Json → Except String (List Json)
  | [], _, dupes => .ok dupes
  | rid :: rest, seen, dupes =>
    if !pyHashable rid then
      .error ("TypeError: unhashable type: " ++ typeName rid)
    else
      dupLoop rest
        (if seen.any (fun x => pyEqScalar x rid) then seen else seen ++ [rid])
        (if seen.any (fun x => pyEqScalar x rid) &&
            !dupes.any (fun x => pyEqScalar x rid) then
          dupes ++ [rid]
        else dupes)

/-- The duplicate-id detection of validate_db over the collected ids. -/
def dupListE (ids : List Json) : Except String (List Json) :=
  dupLoop ids [] []

/-- Lexicographic comparison of character lists by code point, the order
Python uses on strings. -/
def charListLt : List Char → List Char → Bool
  | [], [] => false
  | [], _ :: _ => true
  | _ :: _, [] => false
  | a :: as, b :: bs =>
    if a.toNat < b.toNat then true
    else if b.toNat < a.toNat then false
    else charListLt as bs

/-- Python `a < b` on strings. -/
def strLt (a b : String) : Bool := charListLt a.data b.data

/-- Stable insertion of a value into a list sorted by a string key. -/
def insertByKey (key : Json → String) (x : Json) : List Json → List Json
  | [] => [x]
  | y :: ys =>
    if strLt (key x) (key y) then x :: y :: ys else y :: insertByKey key x ys

/-- Python `sorted(vals, key=str)` (stable sort by the stringified
value). -/
def sortByStr (vals : List Json) : List Json :=
  vals.foldl (fun acc x => insertByKey pyStr x acc) []

/-- Stable insertion of a string into a sorted list of strings. -/
def insertStr (x : String) : List String → List String
  | [] => [x]
  | y :: ys => if strLt x y then x :: y :: ys else y :: insertStr x ys

/-- Python `sorted` on a list of strings. -/
def sortStrings (xs : List String) : List String :=
  xs.foldl (fun acc x => insertStr x acc) []

/-- Python `repr` of a list of strings, as interpolated by the f-string
for mixed-type reports. -/
def reprStrList (xs : List String) : String :=
  "[" ++ String.intercalate ", " (xs.map (fun s => "\x27" ++ s ++ "\x27")) ++ "]"

/-- Python `repr` of a list of ids, as interpolated by the f-string for
duplicate reports. -/
def reprJsonList (xs : List Json) : String :=
  "[" ++ String.intercalate ", " (xs.map pyRepr) ++ "]"

/-- Add one observed value type to the per-field type table (a dict of
sets, both kept in insertion order). -/
def addFieldType (table : List (String × List String)) (k : String)
    (t : String) : List (String × List String) :=
  match assocGet? table k with
  | none => table ++ [(k, [t])]
  | some ts =>
    if t ∈ ts then table else assocSet table k (ts ++ [t])

/-- The field_types loop of validate_db: every field of every record,
mapped to the set of observed type names, accumulated record by
record. -/
def fieldTypes (records : List Json) (table : List (String × List String)) :
    Except String (List (String × List String)) :=
  match records with
  | [] => .ok table
  | r :: rest => do
    let fs ← pyItems r
    fieldTypes rest
      (fs.foldl (fun tbl kv => addFieldType tbl kv.1 (typeName kv.2)) table)

/-- The mixed-type issues of validate_db: fields with at least two
distinct non-null types. -/
def mixedIssues (name : String) (records : List Json) :
    Except String (List String) := do
  let table ← fieldTypes records []
  .ok (table.foldl (fun acc entry =>
    let realTypes := entry.2.filter (fun t => t ≠ "NoneType")
    if realTypes.length > 1 then
      acc ++ ["\x27" ++ name ++ "." ++ entry.1 ++ "\x27 has mixed types: " ++
        reprStrList (sortStrings realTypes)]
    else acc) [])

/-- The per-collection body of the validate_db loop for a list-valued
collection. -/
def checkArr (name : String) (rs : List Json) : Except String (List String) :=
  if rs.isEmpty then .ok ["\x27" ++ name ++ "\x27 is empty"]
  else
    if (rs.filter (fun r => !r.isObj)).length > 0 then
      .ok ["\x27" ++ name ++ "\x27 has " ++
        toString (rs.filter (fun r => !r.isObj)).length ++
        " non-object entries"]
    else do
      let missing ← countMissingId rs
      let missingIssues :=
        if missing > 0 then
          ["\x27" ++ name ++ "\x27 has " ++ toString missing ++ "/" ++
            toString rs.length ++ " records without \x27id\x27 field"]
        else []
      let ids ← collectIds rs
      let dupes ← dupListE ids
      let dupIssues :=
        if !dupes.isEmpty then
          ["\x27" ++ name ++ "\x27 has duplicate IDs: " ++
            reprJsonList (sortByStr dupes)]
        else []
      let mixed ← mixedIssues name rs
      .ok (missingIssues ++ dupIssues ++ mixed)

/-- The per-collection body of the validate_db loop. -/
def checkCollection (name : String) : Json → Except String (List String)
  | .arr rs => checkArr name rs
  | _ =>
    .ok ["\x27" ++ name ++ "\x27 is not an array (expected a list of records)"]

/-- The collection loop of validate_db. -/
def validateCols : List (String × Json) → Except String (List String)
  | [] => .ok []
  | (name, records) :: rest => do
    let here ← checkCollection name records
    let there ← validateCols rest
    .ok (here ++ there)

/-- `validate_db` of validate.py.  The `Except` layer records where the
Python code would raise if a guard were removed; the claim that it never
raises is the statement that the result is always `Except.ok`. -/
def validate_db (data : Json) : Except String (List String) :=
  match data with
  | .obj [] => .ok ["Database is empty (no collections)"]
  | .obj cols => validateCols cols
  | _ => .ok ["Root element must be a JSON object"]

/-- The stringified value a record offers for a filter key: the `str` of
the field when the record is a dict (absent fields default to the empty
string), and irrelevant otherwise. -/
def fieldStr (i : Json) (k : String) : String :=
  match i with
  | .obj fs => pyStr (assocGetD fs k (.str ""))
  | _ => ""

/-- What it takes for a record to survive one query constraint: either
the key is ignored, or the record is a dict whose stringified field
equals the query value. -/
def passesConstraint (i : Json) (kv : String × String) : Bool :=
  ignoredKey kv.1 || (i.isObj && (fieldStr i kv.1 == kv.2))

lemma filterStep_eq (items : List Json) (k v : String) :
    filterStep items k v =
      items.filter (fun i => i.isObj && (fieldStr i k == v)) := by
  apply List.filter_congr
  intro x _
  cases x <;> simp [fieldStr, Json.isObj]

lemma applyFilters_eq (args : List (String × String)) :
    ∀ items : List Json,
      applyFilters items args =
        items.filter (fun i => args.all (passesConstraint i)) := by
  induction args with
  | nil =>
    intro items
    simp [applyFilters, List.filter_true]
  | cons kv args ih =>
    intro items
    show applyFilters
      (if ignoredKey kv.1 then items else filterStep items kv.1 kv.2) args = _
    by_cases hc : ignoredKey kv.1 = true
    · rw [if_pos hc, ih items]
      exact List.filter_congr
        (fun x _ => by simp [List.all_cons, passesConstraint, hc])
    · rw [if_neg hc, filterStep_eq, ih, List.filter_filter]
      have hc' : ignoredKey kv.1 = false := by
        cases h : ignoredKey kv.1
        · rfl
        · exact absurd h hc
      exact List.filter_congr
        (fun x _ => by
          simp [List.all_cons, passesConstraint, hc', Bool.and_comm])

/-- The two-record collection of the concrete filter scenario. -/
def aliceRec : Json := .obj [("id", .num 1), ("name", .str "Alice")]

/-- The second record of the concrete filter scenario. -/
def bobRec : Json := .obj [("id", .num 2), ("name", .str "Bob")]

/-- The concrete document of the filter scenario. -/
def usersDb : List (String × Json) := [("users", .arr [aliceRec, bobRec])]

/-- Claim C2: the filtering stage of List ignores constraints whose key
starts with an underscore or is longer than the 50-character bound, and
keeps exactly the records that, for every remaining constraint, are dicts
whose stringified field (absent fields reading as the empty string)
equals the constraint value; on the two-record example, filtering by
name Alice returns exactly the Alice record and filtering by name Nobody
returns the empty list. -/
theorem filter_semantics :
    (∀ (items : List Json) (args : List (String × String)),
      applyFilters items args =
        items.filter (fun i => args.all (passesConstraint i))) ∧
    list_items usersDb "users" [("name", "Alice")] = .okList [aliceRec] ∧
    list_items usersDb "users" [("name", "Nobody")] = .okList [] :=
  ⟨fun items args => applyFilters_eq args items, by rfl, by rfl⟩

/-- Claim C7: the validator reports exactly one duplicate-id issue (naming
users and id 1) on two records sharing id 1, exactly one empty-database
issue on the empty document, no mixed-type issue for a field observed
with values 1 and null, and a mixed-type issue for a field observed with
values 1 and a string. -/
theorem validator_determinism :
    validate_db (.obj [("users", .arr [.obj [("id", .num 1)],
        .obj [("id", .num 1)]])]) =
      .ok ["\x27users\x27 has duplicate IDs: [1]"] ∧
    validate_db (.obj []) = .ok ["Database is empty (no collections)"] ∧
    validate_db (.obj [("a", .arr [.obj [("id", .num 1), ("x", .num 1)],
        .obj [("id", .num 2), ("x", .null)]])]) = .ok [] ∧
    validate_db (.obj [("a", .arr [.obj [("id", .num 1), ("x", .num 1)],
        .obj [("id", .num 2), ("x", .str "x")]])]) =
      .ok ["\x27a.x\x27 has mixed types: [\x27int\x27, \x27str\x27]"] :=
  ⟨by rfl, by rfl, by rfl, by rfl⟩

/-- The application state of the reload scenario: one collection with one
record, counter 1, nothing yet in `app.config`. -/
def reloadApp : AppFull :=
  ⟨[("users", Json.arr [Json.obj [("id", Json.num 1)]])], [("users", 1)], none⟩

/-- The re-parsed document the watcher reads after the backing file
changed: the users collection is now empty. -/
def reloadedDoc : Json := .obj [("users", Json.arr [])]

/-- Claim C9 describes the intended hot reload, but the watcher of cli.py
stores the re-parsed document only in `app.config["DB_DATA"]`, a key no
request handler reads: after the reload step the closure document and the
counters are unchanged, and a subsequent List still serves the stale
record instead of the reloaded (empty) collection. -/
theorem hot_reload_dead_store :
    (watcher_reload reloadApp reloadedDoc).db = reloadApp.db ∧
    (watcher_reload reloadApp reloadedDoc).counters = reloadApp.counters ∧
    (watcher_reload reloadApp reloadedDoc).configDbData = some reloadedDoc ∧
    app_list_items (watcher_reload reloadApp reloadedDoc) "users" [] =
      Resp.okList [Json.obj [("id", Json.num 1)]] ∧
    Resp.okList [Json.obj [("id", Json.num 1)]] ≠ Resp.okList [] :=
  ⟨rfl, rfl, rfl, by rfl, by decide⟩

/-- The eleven-record collection of the pagination counterexample. -/
def elevenRecords : List Json :=
  (List.range 11).map (fun n => .obj [("id", .num (n + 1))])

/-- Claim C3 says an invalid `_page` leaves the result unpaginated, but
`_limit` defaults to 10 and the `elif limit:` branch always truncates:
with eleven records and the invalid `_page=0`, List returns only the
first ten records, not all eleven. -/
theorem pagination_fallback_counterexample :
    list_items [("nums", .arr elevenRecords)] "nums" [("_page", "0")] =
      .okList (elevenRecords.take 10) ∧
    elevenRecords.take 10 ≠ elevenRecords :=
  ⟨by rfl, by decide⟩

lemma pySlice_from_zero (xs : List Json) (l : Int) (hl : 0 ≤ l) :
    pySlice xs 0 l = xs.take l.toNat := by
  have hn : (0 : Int) ≤ (xs.length : Int) := Int.ofNat_nonneg _
  simp only [pySlice]
  rw [if_neg (by omega), if_neg (by omega)]
  rw [min_eq_left hn, Int.toNat_zero, List.drop_zero]
  rcases le_total l (xs.length : Int) with h | h
  · rw [min_eq_left h]
  · rw [min_eq_right h]
    have hlen : ((xs.length : Int)).toNat = xs.length := by omega
    rw [hlen, List.take_length]
    exact (List.take_of_length_le (by omega)).symm

lemma boundCheck_some (r : Int) (d : Option Int) (lo hi : Int) :
    boundCheck r d (some lo) (some hi) =
      if lo ≤ r ∧ r ≤ hi then some r else d := by
  unfold boundCheck
  simp only [Option.any_some]
  split_ifs with h1 h2 h3 <;>
    first
      | rfl
      | (exfalso; simp only [decide_eq_true_eq] at *; omega)

lemma limitOf_none (args : List (String × String))
    (h : assocGet? args "_limit" = none) : limitOf args = 10 := by
  unfold limitOf limitParam
  rw [h]
  show (safe_int_param (.intV 10) (some 10) (some 1) (some 100)).getD 10 = 10
  simp only [safe_int_param]
  rw [boundCheck_some]
  norm_num

lemma limitOf_unparsed (args : List (String × String)) (s : String)
    (hs : assocGet? args "_limit" = some s) (hp : pyInt? s = none) :
    limitOf args = 10 := by
  unfold limitOf limitParam
  rw [hs]
  show (safe_int_param (.strV s) (some 10) (some 1) (some 100)).getD 10 = 10
  simp only [safe_int_param]
  rw [hp]
  rfl

lemma limitOf_parsed (args : List (String × String)) (s : String) (n : Int)
    (hs : assocGet? args "_limit" = some s) (hp : pyInt? s = some n) :
    limitOf args = if 1 ≤ n ∧ n ≤ 100 then n else 10 := by
  unfold limitOf limitParam
  rw [hs]
  show (safe_int_param (.strV s) (some 10) (some 1) (some 100)).getD 10 = _
  simp only [safe_int_param]
  rw [hp]
  show (boundCheck n (some 10) (some 1) (some 100)).getD 10 = _
  rw [boundCheck_some]
  split_ifs with h <;> rfl

lemma limitOf_mem_range (args : List (String × String)) :
    1 ≤ limitOf args ∧ limitOf args ≤ 100 := by
  cases hv : assocGet? args "_limit" with
  | none => rw [limitOf_none args hv]; omega
  | some s =>
    cases hp : pyInt? s with
    | none => rw [limitOf_unparsed args s hv hp]; omega
    | some n =>
      rw [limitOf_parsed args s n hv hp]
      split_ifs with h <;> omega

lemma pageOf_none (args : List (String × String))
    (h : assocGet? args "_page" = none) : pageOf args = none := by
  unfold pageOf pageParam
  rw [h]
  rfl

lemma pageOf_unparsed (args : List (String × String)) (s : String)
    (hs : assocGet? args "_page" = some s) (hp : pyInt? s = none) :
    pageOf args = none := by
  unfold pageOf pageParam
  rw [hs]
  show safe_int_param (.strV s) none (some 1) (some 1000) = none
  simp only [safe_int_param]
  rw [hp]

lemma pageOf_parsed (args : List (String × String)) (s : String) (n : Int)
    (hs : assocGet? args "_page" = some s) (hp : pyInt? s = some n) :
    pageOf args = if 1 ≤ n ∧ n ≤ 1000 then some n else none := by
  unfold pageOf pageParam
  rw [hs]
  show safe_int_param (.strV s) none (some 1) (some 1000) = _
  simp only [safe_int_param]
  rw [hp]
  show boundCheck n none (some 1) (some 1000) = _
  rw [boundCheck_some]

lemma pageOf_bounds (args : List (String × String)) (p : Int)
    (h : pageOf args = some p) : 1 ≤ p ∧ p ≤ 1000 := by
  cases hv : assocGet? args "_page" with
  | none => rw [pageOf_none args hv] at h; exact absurd h (by simp)
  | some s =>
    cases hp : pyInt? s with
    | none => rw [pageOf_unparsed args s hv hp] at h; exact absurd h (by simp)
    | some n =>
      rw [pageOf_parsed args s n hv hp] at h
      split_ifs at h with hb
      cases h; exact hb

lemma paginate_some (filtered : List Json) (p l : Int) (hp1 : 1 ≤ p) :
    paginate filtered (some p) l =
      pySlice filtered ((p - 1) * l) (p * l) := by
  show (if p ≠ 0 then pySlice filtered ((p - 1) * l) ((p - 1) * l + l)
    else if l ≠ 0 then pySlice filtered 0 l else filtered) = _
  rw [if_pos (by omega : p ≠ 0)]
  have he : (p - 1) * l + l = p * l := by ring
  rw [he]

lemma paginate_none_limit (filtered : List Json) (l : Int) (h1 : 1 ≤ l) :
    paginate filtered none l = filtered.take l.toNat := by
  show (if l ≠ 0 then pySlice filtered 0 l else filtered) = _
  rw [if_pos (by omega : l ≠ 0)]
  exact pySlice_from_zero _ _ (by omega)

/-- Claim C3 amended: `_page` is 1-based and `_limit` defaults to 10 with
valid range 1..100; when `_page` is present and valid (1..1000) the
result is the slice from (page-1)*limit to page*limit; otherwise —
including when `_page` is absent, non-numeric or out of range — the
result is the first `limit` records, a non-numeric or out-of-range
`_limit` falling back to the default 10 rather than disabling
pagination; no error is ever produced by the pagination stage. -/
theorem pagination_semantics_amended
    (filtered : List Json) (args : List (String × String)) :
    (1 ≤ limitOf args ∧ limitOf args ≤ 100) ∧
    (assocGet? args "_limit" = none → limitOf args = 10) ∧
    (∀ s, assocGet? args "_limit" = some s → pyInt? s = none →
      limitOf args = 10) ∧
    (∀ s n, assocGet? args "_limit" = some s → pyInt? s = some n →
      limitOf args = if 1 ≤ n ∧ n ≤ 100 then n else 10) ∧
    (assocGet? args "_page" = none → pageOf args = none) ∧
    (∀ s, assocGet? args "_page" = some s → pyInt? s = none →
      pageOf args = none) ∧
    (∀ s n, assocGet? args "_page" = some s → pyInt? s = some n →
      pageOf args = if 1 ≤ n ∧ n ≤ 1000 then some n else none) ∧
    (∀ p, pageOf args = some p →
      paginate filtered (pageOf args) (limitOf args) =
        pySlice filtered ((p - 1) * limitOf args) (p * limitOf args)) ∧
    (pageOf args = none →
      paginate filtered (pageOf args) (limitOf args) =
        filtered.take (limitOf args).toNat) := by
  refine ⟨limitOf_mem_range args, limitOf_none args,
    fun s => limitOf_unparsed args s,
    fun s n => limitOf_parsed args s n,
    pageOf_none args,
    fun s => pageOf_unparsed args s,
    fun s n => pageOf_parsed args s n,
    fun p hp => ?_, fun hnone => ?_⟩
  · rw [hp]
    exact paginate_some filtered p (limitOf args)
      (pageOf_bounds args p hp).1
  · rw [hnone]
    exact paginate_none_limit filtered (limitOf args)
      (limitOf_mem_range args).1

/-- Witness for the amended pagination claim: with the invalid `_page=0`
the page parameter is dropped and the stage returns the first ten (the
default limit) records. -/
theorem pagination_semantics_amended_witness :
    paginate elevenRecords (pageOf [("_page", "0")])
        (limitOf [("_page", "0")]) =
      elevenRecords.take (limitOf [("_page", "0")]).toNat :=
  (pagination_semantics_amended elevenRecords
    [("_page", "0")]).2.2.2.2.2.2.2.2 (by rfl)

lemma assocGet?_assocSet_self {α : Type} (l : List (String × α)) (k : String)
    (v : α) : assocGet? (assocSet l k v) k = some v := by
  induction l with
  | nil => simp [assocSet, assocGet?]
  | cons p rest ih =>
    by_cases h : p.1 = k
    · simp [assocSet, h, assocGet?]
    · simp [assocSet, h, assocGet?, ih]

lemma assocGetD_assocSet_self {α : Type} (l : List (String × α)) (k : String)
    (v d : α) : assocGetD (assocSet l k v) k d = v := by
  simp [assocGetD, assocGet?_assocSet_self]

/-- Claim C4: a Create stores the freshly allocated id (the new counter
value), overwriting any id supplied in the body; a successful Update
stores the path id regardless of any id in the body; in particular
updating record 1 of users with a body carrying id 999 stores a record
with id 1. -/
theorem id_precedence :
    (∀ (s : ServerState) (c : String) (fs u : List (String × Json))
        (s2 : ServerState) (pers : Bool),
      create_item s c (.json (.obj fs)) = ⟨.created (.obj u), s2, pers⟩ →
      u = assocSet fs "id" (.num (assocGetD s2.counters c 0)) ∧
      assocGet? u "id" = some (.num (assocGetD s2.counters c 0))) ∧
    (∀ (s : ServerState) (c : String) (i : Int) (fs u : List (String × Json))
        (s2 : ServerState) (pers : Bool),
      update_item s c i (.json (.obj fs)) = ⟨.okItem (.obj u), s2, pers⟩ →
      assocGet? u "id" = some (.num i)) ∧
    (update_item ⟨[("users", .arr [.obj [("id", .num 1), ("name", .str "Old")]])],
        [("users", 1)]⟩ "users" 1
        (.json (.obj [("id", .num 999), ("name", .str "X")]))).resp =
      .okItem (.obj [("id", .num 1), ("name", .str "X")]) := by
  refine ⟨?_, ?_, by rfl⟩
  · intro s c fs u s2 pers h
    unfold create_item at h
    cases hval : validate_collection_name c with
    | false => rw [hval] at h; simp at h
    | true =>
      rw [hval] at h
      simp only [Bool.not_true, bodyObj?] at h
      cases hdb : assocGet? s.db c with
      | none =>
        rw [hdb] at h
        rw [if_neg Bool.false_ne_true] at h
        simp only [MutResult.mk.injEq, Resp.created.injEq,
          Json.obj.injEq] at h
        obtain ⟨hu, hs2, -⟩ := h
        subst hs2
        have hc : assocGetD (assocSet s.counters c 1) c (0 : Int) = 1 :=
          assocGetD_assocSet_self _ _ _ _
        constructor
        · rw [← hu]
          simp only [hc]
        · rw [← hu]
          simp only [hc, assocGet?_assocSet_self]
      | some j =>
        rw [hdb] at h
        cases j with
        | arr items =>
          rw [if_neg Bool.false_ne_true] at h
          simp only [MutResult.mk.injEq, Resp.created.injEq,
            Json.obj.injEq] at h
          obtain ⟨hu, hs2, -⟩ := h
          subst hs2
          have hc : assocGetD
              (assocSet s.counters c (assocGetD s.counters c 0 + 1)) c (0 : Int) =
              assocGetD s.counters c 0 + 1 :=
            assocGetD_assocSet_self _ _ _ _
          constructor
          · rw [← hu]
            simp only [hc]
          · rw [← hu]
            simp only [hc, assocGet?_assocSet_self]
        | null => simp at h
        | bool b => simp at h
        | num n => simp at h
        | str t => simp at h
        | obj gs => simp at h
  · intro s c i fs u s2 pers h
    unfold update_item at h
    cases hval : validate_collection_name c with
    | false => rw [hval] at h; simp at h
    | true =>
      rw [hval] at h
      simp only [Bool.not_true] at h
      cases hdb : assocGet? s.db c with
      | none => rw [hdb] at h; simp at h
      | some j =>
        rw [hdb] at h
        cases j with
        | arr items =>
          simp only [bodyObj?] at h
          cases hrep : replaceFirst items i
              (Json.obj (assocSet fs "id" (Json.num i))) with
          | none => rw [hrep] at h; simp at h
          | some newItems =>
            rw [hrep] at h
            rw [if_neg Bool.false_ne_true] at h
            simp only [MutResult.mk.injEq, Resp.okItem.injEq,
              Json.obj.injEq] at h
            obtain ⟨hu, -, -⟩ := h
            rw [← hu]
            exact assocGet?_assocSet_self _ _ _
        | null => simp at h
        | bool b => simp at h
        | num n => simp at h
        | str t => simp at h
        | obj gs => simp at h

/-- Witness for C4: creating with body id 999 into an empty store yields
a record whose id is the allocated 1, and the concrete update stores the
path id 1. -/
theorem id_precedence_witness :
    assocGet? [("id", Json.num 1)] "id" = some (Json.num 1) ∧
    assocGet? [("id", Json.num 1), ("name", Json.str "X")] "id" =
      some (Json.num 1) := by
  have h1 := id_precedence.1 ⟨[], []⟩ "users" [("id", Json.num 999)]
    [("id", Json.num 1)]
    ⟨[("users", Json.arr [Json.obj [("id", Json.num 1)]])], [("users", 1)]⟩
    true (by rfl)
  have h2 := id_precedence.2.1
    ⟨[("users", Json.arr [Json.obj [("id", Json.num 1), ("name", Json.str "Old")]])],
     [("users", 1)]⟩ "users" 1
    [("id", Json.num 999), ("name", Json.str "X")]
    [("id", Json.num 1), ("name", Json.str "X")]
    ⟨[("users", Json.arr [Json.obj [("id", Json.num 1), ("name", Json.str "X")]])],
     [("users", 1)]⟩ true (by rfl)
  exact ⟨h1.2, h2⟩

lemma create_item_err (s : ServerState) (c : String) (b : Body) :
    (create_item s c b).resp.isErr = true →
    (create_item s c b).state = s ∧ (create_item s c b).persisted = false := by
  unfold create_item
  split
  · exact fun _ => ⟨rfl, rfl⟩
  · split
    · exact fun _ => ⟨rfl, rfl⟩
    · split
      · intro h; simp [Resp.isErr] at h
      · intro h; simp [Resp.isErr] at h
      · exact fun _ => ⟨rfl, rfl⟩

lemma update_item_err (s : ServerState) (c : String) (i : Int) (b : Body) :
    (update_item s c i b).resp.isErr = true →
    (update_item s c i b).state = s ∧ (update_item s c i b).persisted = false := by
  unfold update_item
  split
  · exact fun _ => ⟨rfl, rfl⟩
  · split
    · exact fun _ => ⟨rfl, rfl⟩
    · split
      · exact fun _ => ⟨rfl, rfl⟩
      · split
        · intro h; simp [Resp.isErr] at h
        · exact fun _ => ⟨rfl, rfl⟩
    · exact fun _ => ⟨rfl, rfl⟩

lemma delete_item_err (s : ServerState) (c : String) (i : Int) :
    (delete_item s c i).resp.isErr = true →
    (delete_item s c i).state = s ∧ (delete_item s c i).persisted = false := by
  unfold delete_item
  split
  · exact fun _ => ⟨rfl, rfl⟩
  · split
    · exact fun _ => ⟨rfl, rfl⟩
    · split
      · intro h; simp [Resp.isErr] at h
      · exact fun _ => ⟨rfl, rfl⟩
    · exact fun _ => ⟨rfl, rfl⟩

/-- Claim C5: whenever Create, Update or Delete returns one of the
structured error results, the in-memory state is unchanged and no
persist was triggered. -/
theorem rejected_mutations_pure (s : ServerState) (c : String) (b : Body)
    (i : Int) :
    ((create_item s c b).resp.isErr = true →
      (create_item s c b).state = s ∧ (create_item s c b).persisted = false) ∧
    ((update_item s c i b).resp.isErr = true →
      (update_item s c i b).state = s ∧
      (update_item s c i b).persisted = false) ∧
    ((delete_item s c i).resp.isErr = true →
      (delete_item s c i).state = s ∧ (delete_item s c i).persisted = false) :=
  ⟨create_item_err s c b, update_item_err s c i b, delete_item_err s c i⟩

/-- Witness for C5: a rejected create (invalid name) and a rejected
update and delete (missing collection) leave the empty state untouched
with no persist. -/
theorem rejected_mutations_pure_witness :
    (create_item ⟨[], []⟩ "bad name" Body.invalid).state = ⟨[], []⟩ ∧
    (create_item ⟨[], []⟩ "bad name" Body.invalid).persisted = false ∧
    (update_item ⟨[], []⟩ "users" 1 (Body.json (Json.obj []))).state =
      ⟨[], []⟩ ∧
    (delete_item ⟨[], []⟩ "users" 1).persisted = false := by
  have h := rejected_mutations_pure ⟨[], []⟩ "bad name" Body.invalid 0
  have h2 := rejected_mutations_pure ⟨[], []⟩ "users" (Body.json (Json.obj [])) 1
  exact ⟨(h.1 (by rfl)).1, (h.1 (by rfl)).2, (h2.2.1 (by rfl)).1,
    (h2.2.2 (by rfl)).2⟩

/-- Claim C6: collection-name validation runs before any existence check
for all five operations, and for Get, Update and Delete an absent
collection yields CollectionNotFound before any record lookup; in
particular Get on a missing ghost collection returns CollectionNotFound,
never RecordNotFound. -/
theorem validation_precedence (db : List (String × Json))
    (cnt : List (String × Int)) (c : String)
    (args : List (String × String)) (b : Body) (i : Int) :
    (validate_collection_name c = false →
      list_items db c args = .invalidName ∧
      get_item db c i = .invalidName ∧
      (create_item ⟨db, cnt⟩ c b).resp = .invalidName ∧
      (update_item ⟨db, cnt⟩ c i b).resp = .invalidName ∧
      (delete_item ⟨db, cnt⟩ c i).resp = .invalidName) ∧
    (validate_collection_name c = true → assocGet? db c = none →
      list_items db c args = .collectionNotFound ∧
      get_item db c i = .collectionNotFound ∧
      (update_item ⟨db, cnt⟩ c i b).resp = .collectionNotFound ∧
      (delete_item ⟨db, cnt⟩ c i).resp = .collectionNotFound) ∧
    (get_item usersDb "ghost" i = .collectionNotFound ∧
      Resp.collectionNotFound ≠ Resp.itemNotFound) := by
  refine ⟨fun hval => ?_, fun hval hdb => ?_, by rfl, by decide⟩
  · simp [list_items, get_item, create_item, update_item, delete_item, hval]
  · simp [list_items, get_item, update_item, delete_item, hval, hdb]

/-- Witness for C6: an invalid name is rejected on an empty store, and
Get on the missing ghost collection reports the collection, not the
record. -/
theorem validation_precedence_witness :
    list_items [] "bad name" [] = Resp.invalidName ∧
    get_item usersDb "ghost" 1 = Resp.collectionNotFound := by
  have h := validation_precedence [] [] "bad name" [] Body.invalid 0
  have h2 := validation_precedence usersDb [] "ghost" [] Body.invalid 1
  exact ⟨(h.1 (by rfl)).1, (h2.2.1 (by rfl) (by rfl)).2.1⟩

lemma find?_first_match (i : Int) (pre : List Json) (r : Json)
    (post : List Json) (hpre : ∀ x ∈ pre, matchesId x i = false)
    (hr : matchesId r i = true) :
    (pre ++ r :: post).find? (fun x => matchesId x i) = some r := by
  induction pre with
  | nil => exact List.find?_cons_of_pos _ hr
  | cons a pre ih =>
    rw [List.cons_append, List.find?_cons_of_neg _ (by
      simp [hpre a (by simp)])]
    exact ih (fun x hx => hpre x (by simp [hx]))

lemma replaceFirst_first_match (i : Int) (u : Json) (pre : List Json)
    (r : Json) (post : List Json)
    (hpre : ∀ x ∈ pre, matchesId x i = false)
    (hr : matchesId r i = true) :
    replaceFirst (pre ++ r :: post) i u = some (pre ++ u :: post) := by
  induction pre with
  | nil => simp [replaceFirst, hr]
  | cons a pre ih =>
    rw [List.cons_append]
    unfold replaceFirst
    rw [if_neg (by simp [hpre a (by simp)])]
    rw [ih (fun x hx => hpre x (by simp [hx]))]
    rfl

lemma popFirst_first_match (i : Int) (pre : List Json) (r : Json)
    (post : List Json) (hpre : ∀ x ∈ pre, matchesId x i = false)
    (hr : matchesId r i = true) :
    popFirst (pre ++ r :: post) i = some (r, pre ++ post) := by
  induction pre with
  | nil => simp [popFirst, hr]
  | cons a pre ih =>
    rw [List.cons_append]
    unfold popFirst
    rw [if_neg (by simp [hpre a (by simp)])]
    rw [ih (fun x hx => hpre x (by simp [hx]))]
    rfl

/-- Claim C10: with duplicate ids in a collection, Get returns the first
matching record in sequence order, Update replaces only the first match
(later duplicates are preserved verbatim), Delete removes only the first
match, and entries that are not mappings are never matched by any id. -/
theorem first_match_semantics (s : ServerState) (c : String) (i : Int)
    (pre post : List Json) (r : Json) (data : List (String × Json))
    (hval : validate_collection_name c = true)
    (hdb : assocGet? s.db c = some (.arr (pre ++ r :: post)))
    (hpre : ∀ x ∈ pre, matchesId x i = false)
    (hr : matchesId r i = true) :
    get_item s.db c i = .okItem r ∧
    update_item s c i (.json (.obj data)) =
      ⟨.okItem (.obj (assocSet data "id" (.num i))),
       ⟨assocSet s.db c
          (.arr (pre ++ Json.obj (assocSet data "id" (.num i)) :: post)),
        s.counters⟩, true⟩ ∧
    delete_item s c i =
      ⟨.okItem r, ⟨assocSet s.db c (.arr (pre ++ post)), s.counters⟩, true⟩ ∧
    (∀ e : Json, e.isObj = false → matchesId e i = false) := by
  refine ⟨?_, ?_, ?_, ?_⟩
  · unfold get_item
    rw [hval, hdb]
    show (match (pre ++ r :: post).find? (fun x => matchesId x i) with
      | some item => Resp.okItem item
      | none => Resp.itemNotFound) = Resp.okItem r
    rw [find?_first_match i pre r post hpre hr]
  · unfold update_item
    rw [hval, hdb]
    show (match replaceFirst (pre ++ r :: post) i
        (Json.obj (assocSet data "id" (Json.num i))) with
      | some newItems =>
        (⟨.okItem (Json.obj (assocSet data "id" (Json.num i))),
         ⟨assocSet s.db c (.arr newItems), s.counters⟩, true⟩ : MutResult)
      | none => ⟨.itemNotFound, s, false⟩) = _
    rw [replaceFirst_first_match i _ pre r post hpre hr]
  · unfold delete_item
    rw [hval, hdb]
    show (match popFirst (pre ++ r :: post) i with
      | some (deleted, rest) =>
        (⟨.okItem deleted, ⟨assocSet s.db c (.arr rest), s.counters⟩, true⟩ :
          MutResult)
      | none => ⟨.itemNotFound, s, false⟩) = _
    rw [popFirst_first_match i pre r post hpre hr]
  · intro e he
    cases e <;> simp_all [matchesId, Json.isObj]

lemma pyContainsId_obj (r : Json) (h : r.isObj = true) :
    ∃ b, pyContainsId r = .ok b := by
  cases r
  case obj fs => exact ⟨_, rfl⟩
  all_goals simp [Json.isObj] at h

lemma countMissingId_ok (rs : List Json) (h : ∀ r ∈ rs, r.isObj = true) :
    ∃ n, countMissingId rs = .ok n := by
  induction rs with
  | nil => exact ⟨0, rfl⟩
  | cons r rest ih =>
    obtain ⟨b, hb⟩ := pyContainsId_obj r (h r (by simp))
    obtain ⟨n, hn⟩ := ih (fun x hx => h x (by simp [hx]))
    refine ⟨if b then n else n + 1, ?_⟩
    unfold countMissingId
    rw [hb, hn]
    rfl

lemma dupLoop_ok (ids : List Json) (h : ∀ v ∈ ids, pyHashable v = true) :
    ∀ seen dupes, ∃ l, dupLoop ids seen dupes = .ok l := by
  induction ids with
  | nil => exact fun _ dupes => ⟨dupes, rfl⟩
  | cons rid rest ih =>
    intro seen dupes
    have hh := h rid (by simp)
    obtain ⟨l, hl⟩ := ih (fun v hv => h v (by simp [hv]))
      (if seen.any (fun x => pyEqScalar x rid) then seen else seen ++ [rid])
      (if seen.any (fun x => pyEqScalar x rid) &&
          !dupes.any (fun x => pyEqScalar x rid) then
        dupes ++ [rid]
      else dupes)
    refine ⟨l, ?_⟩
    unfold dupLoop
    rw [hh]
    exact hl

lemma collectIds_ok (rs : List Json) (hobj : ∀ r ∈ rs, r.isObj = true)
    (hid : ∀ fs, Json.obj fs ∈ rs → ∀ v, assocGet? fs "id" = some v →
      pyHashable v = true) :
    ∃ ids, collectIds rs = .ok ids ∧ ∀ v ∈ ids, pyHashable v = true := by
  induction rs with
  | nil => exact ⟨[], rfl, by simp⟩
  | cons r rest ih =>
    obtain ⟨ids, hids, hhash⟩ := ih (fun x hx => hobj x (by simp [hx]))
      (fun fs hfs v hv => hid fs (by simp [hfs]) v hv)
    have hr := hobj r (by simp)
    cases r
    case obj fs =>
      cases hidv : assocGet? fs "id" with
      | some v =>
        refine ⟨v :: ids, ?_, ?_⟩
        · unfold collectIds
          show (pyContainsId (Json.obj fs)).bind _ = _
          simp only [pyContainsId, hidv, Option.isSome_some]
          show (pyIndexId (Json.obj fs)).bind _ = _
          simp only [pyIndexId, hidv]
          rw [hids]
          rfl
        · intro w hw
          rcases List.mem_cons.mp hw with rfl | hw2
          · exact hid fs (by simp) w hidv
          · exact hhash w hw2
      | none =>
        refine ⟨ids, ?_, hhash⟩
        unfold collectIds
        show (pyContainsId (Json.obj fs)).bind _ = _
        simp only [pyContainsId, hidv, Option.isSome_none]
        exact hids
    all_goals simp [Json.isObj] at hr

lemma fieldTypes_ok (rs : List Json) (h : ∀ r ∈ rs, r.isObj = true) :
    ∀ table, ∃ t, fieldTypes rs table = .ok t := by
  induction rs with
  | nil => exact fun table => ⟨table, rfl⟩
  | cons r rest ih =>
    intro table
    have hr := h r (by simp)
    cases r
    case obj fs =>
      obtain ⟨t, ht⟩ := ih (fun x hx => h x (by simp [hx]))
        (fs.foldl (fun tbl kv => addFieldType tbl kv.1 (typeName kv.2)) table)
      refine ⟨t, ?_⟩
      unfold fieldTypes
      show (pyItems (Json.obj fs)).bind _ = _
      simp only [pyItems]
      exact ht
    all_goals simp [Json.isObj] at hr

lemma mixedIssues_ok (name : String) (rs : List Json)
    (h : ∀ r ∈ rs, r.isObj = true) :
    ∃ l, mixedIssues name rs = .ok l := by
  obtain ⟨t, ht⟩ := fieldTypes_ok rs h []
  refine ⟨t.foldl (fun acc entry =>
    if (entry.2.filter (fun ty => ty ≠ "NoneType")).length > 1 then
      acc ++ ["\x27" ++ name ++ "." ++ entry.1 ++ "\x27 has mixed types: " ++
        reprStrList (sortStrings (entry.2.filter (fun ty => ty ≠ "NoneType")))]
    else acc) [], ?_⟩
  show (fieldTypes rs []).bind _ = _
  rw [ht]
  rfl

/-- Whether every id value of one collection is hashable; only list
collections of dict records carry ids the seen/dupes loop touches. -/
def collIdsHashable : Json → Bool
  | .arr rs => rs.all (fun r =>
      match r with
      | .obj fs =>
        match assocGet? fs "id" with
        | some v => pyHashable v
        | none => true
      | _ => true)
  | _ => true

/-- Whether every id value present in the document is hashable. -/
def hashableIds : Json → Bool
  | .obj cols => cols.all (fun p => collIdsHashable p.2)
  | _ => true

lemma checkCollection_ok (name : String) (records : Json)
    (hch : collIdsHashable records = true) :
    ∃ l, checkCollection name records = .ok l := by
  cases records
  case arr rs =>
    show ∃ l, checkArr name rs = .ok l
    unfold checkArr
    by_cases he : rs.isEmpty
    · rw [if_pos he]; exact ⟨_, rfl⟩
    · rw [if_neg he]
      by_cases hnd : (rs.filter (fun r => !r.isObj)).length > 0
      · rw [if_pos hnd]; exact ⟨_, rfl⟩
      · rw [if_neg hnd]
        have hall : ∀ r ∈ rs, r.isObj = true := by
          intro r hrm
          by_contra hc
          have hmem : r ∈ rs.filter (fun r => !r.isObj) :=
            List.mem_filter.mpr ⟨hrm, by
              cases ho : r.isObj
              · rfl
              · exact absurd ho hc⟩
          exact hnd (List.length_pos.mpr (List.ne_nil_of_mem hmem))
        have hch2 : ∀ r ∈ rs, (match r with
            | Json.obj fs =>
              match assocGet? fs "id" with
              | some v => pyHashable v
              | none => true
            | _ => true) = true := by
          simpa [collIdsHashable, List.all_eq_true] using hch
        have hid : ∀ fs, Json.obj fs ∈ rs → ∀ v,
            assocGet? fs "id" = some v → pyHashable v = true := by
          intro fs hfs v hv
          have hp : (match assocGet? fs "id" with
            | some v => pyHashable v
            | none => true) = true := hch2 (Json.obj fs) hfs
          rw [hv] at hp
          exact hp
        obtain ⟨m, hm⟩ := countMissingId_ok rs hall
        obtain ⟨ids, hids, hhash⟩ := collectIds_ok rs hall hid
        obtain ⟨dups, hdups⟩ := dupLoop_ok ids hhash [] []
        have hdE : dupListE ids = .ok dups := hdups
        obtain ⟨mx, hmx⟩ := mixedIssues_ok name rs hall
        refine ⟨(if m > 0 then
            ["\x27" ++ name ++ "\x27 has " ++ toString m ++ "/" ++
              toString rs.length ++ " records without \x27id\x27 field"]
          else []) ++
          (if !dups.isEmpty then
            ["\x27" ++ name ++ "\x27 has duplicate IDs: " ++
              reprJsonList (sortByStr dups)]
          else []) ++ mx, ?_⟩
        rw [hm]
        show (collectIds rs).bind _ = _
        rw [hids]
        show (dupListE ids).bind _ = _
        rw [hdE]
        show (mixedIssues name rs).bind _ = _
        rw [hmx]
        rfl
  all_goals exact ⟨_, rfl⟩

lemma validateCols_ok (cols : List (String × Json))
    (h : ∀ p ∈ cols, collIdsHashable p.2 = true) :
    ∃ l, validateCols cols = .ok l := by
  induction cols with
  | nil => exact ⟨[], rfl⟩
  | cons p rest ih =>
    obtain ⟨l1, h1⟩ := checkCollection_ok p.1 p.2 (h p (by simp))
    obtain ⟨l2, h2⟩ := ih (fun q hq => h q (by simp [hq]))
    refine ⟨l1 ++ l2, ?_⟩
    show (checkCollection p.1 p.2).bind _ = _
    rw [h1, h2]
    rfl

/-- Claim C8 fails as stated: an unhashable id value reaches the
duplicate-id seen/dupes loop, whose set membership test hashes it, so
validate_db raises TypeError instead of returning a report. -/
theorem validator_raises_counterexample :
    validate_db (.obj [("a", Json.arr [Json.obj [("id", Json.arr [])]])]) =
      .error "TypeError: unhashable type: list" ∧
    (validate_db
      (.obj [("a", Json.arr [Json.obj [("id", Json.arr [])]])])).toOption =
      none :=
  ⟨by rfl, by rfl⟩

/-- Claim C8 amended: for every input — any root value, any collection
contents including non-mapping entries — validate_db returns a (possibly
empty) list of issue strings and never raises, provided every id value
present in the records is hashable (null, boolean, number or string);
an unhashable id (a list or an object) makes the duplicate-id set loop
raise TypeError.  Every other partial Python operation it uses (dict
subscription, membership on arbitrary values, `.items()`) is guarded. -/
theorem validator_total_amended (data : Json)
    (h : hashableIds data = true) :
    ∃ issues, validate_db data = .ok issues := by
  cases data
  case obj cols =>
    have h2 : ∀ p ∈ cols, collIdsHashable p.2 = true := by
      simpa [hashableIds, List.all_eq_true] using h
    cases cols with
    | nil => exact ⟨_, rfl⟩
    | cons p rest =>
      obtain ⟨l, hl⟩ := validateCols_ok (p :: rest) h2
      exact ⟨l, hl⟩
  all_goals exact ⟨_, rfl⟩

/-- Witness for the amended C8: a well-formed document with an integer
id yields a report. -/
theorem validator_total_amended_witness :
    ∃ issues, validate_db
      (.obj [("users", Json.arr [Json.obj [("id", Json.num 1)]])]) =
      .ok issues :=
  validator_total_amended _ (by rfl)

/-- First record of the duplicate-id scenario. -/
def dupA : Json := .obj [("id", .num 1), ("v", .str "a")]

/-- Second record of the duplicate-id scenario, sharing id 1. -/
def dupB : Json := .obj [("id", .num 1), ("v", .str "b")]

/-- Store holding the two duplicated records. -/
def dupState : ServerState := ⟨[("users", .arr [dupA, dupB])], [("users", 1)]⟩

/-- Witness for C10: with two records sharing id 1, Get returns the first
and Delete removes only the first, leaving the second in place. -/
theorem first_match_semantics_witness :
    get_item dupState.db "users" 1 = Resp.okItem dupA ∧
    delete_item dupState "users" 1 =
      ⟨Resp.okItem dupA, ⟨[("users", Json.arr [dupB])], [("users", 1)]⟩,
        true⟩ := by
  have h := first_match_semantics dupState "users" 1 [] [dupB] dupA []
    (by rfl) (by rfl) (by simp) (by rfl)
  exact ⟨h.1, h.2.2.1⟩

lemma le_foldl_max (ns : List Int) : ∀ a : Int, a ≤ ns.foldl max a := by
  induction ns with
  | nil => intro a; simp
  | cons b bs ih =>
    intro a
    rw [List.foldl_cons]
    exact le_trans (le_max_left a b) (ih (max a b))

lemma mem_le_foldl_max (ns : List Int) : ∀ (a x : Int), x ∈ ns →
    x ≤ ns.foldl max a := by
  induction ns with
  | nil => intro a x hx; simp at hx
  | cons b bs ih =>
    intro a x hx
    rw [List.foldl_cons]
    rcases List.mem_cons.mp hx with rfl | hx2
    · exact le_trans (le_max_right a x) (le_foldl_max bs (max a x))
    · exact ih (max a b) x hx2

lemma idIntList?_mem (vals : List Json) : ∀ (l : List Int),
    idIntList? vals = some l →
    ∀ w ∈ vals, ∀ n, idAsInt? w = some n → n ∈ l := by
  induction vals with
  | nil => intro l _ w hw; simp at hw
  | cons v rest ih =>
    intro l hl w hw n hn
    unfold idIntList? at hl
    cases hv : idAsInt? v with
    | none =>
      rw [hv] at hl
      cases hr : idIntList? rest <;> rw [hr] at hl <;> simp at hl
    | some n0 =>
      cases hr : idIntList? rest with
      | none => rw [hv, hr] at hl; simp at hl
      | some ns =>
        rw [hv, hr] at hl
        have hl2 : some (n0 :: ns) = some l := hl
        cases hl2
        rcases List.mem_cons.mp hw with rfl | hw2
        · rw [hn] at hv
          cases hv
          exact List.mem_cons_self _ _
        · exact List.mem_cons_of_mem _ (ih ns hr w hw2 n hn)

lemma maxIdVals?_ge (vals : List Json) (m : Int)
    (h : maxIdVals? vals = some m) :
    ∀ w ∈ vals, ∀ n, idAsInt? w = some n → n ≤ m := by
  intro w hw n hn
  unfold maxIdVals? at h
  cases hl : idIntList? vals with
  | none => rw [hl] at h; exact absurd h (by simp)
  | some l =>
    rw [hl] at h
    have hmem := idIntList?_mem vals l hl w hw n hn
    cases l with
    | nil => simp at hmem
    | cons n0 ns =>
      have h2 : some (ns.foldl max n0) = some m := h
      cases h2
      rcases List.mem_cons.mp hmem with rfl | hm2
      · exact le_foldl_max ns n
      · exact mem_le_foldl_max ns n0 n hm2

lemma loadedIds_exists (items : List Json) (v : Int)
    (hv : v ∈ loadedIds items) :
    ∃ w ∈ idVals items, idAsInt? w = some v := by
  induction items with
  | nil => simp [loadedIds] at hv
  | cons x rest ih =>
    by_cases hobj : x.isObj = true
    · obtain ⟨fs, rfl⟩ : ∃ fs, x = Json.obj fs := by
        cases x <;> first | exact ⟨_, rfl⟩ | simp [Json.isObj] at hobj
      have hvals : idVals (Json.obj fs :: rest) =
          assocGetD fs "id" (Json.num 0) :: idVals rest := by
        simp [idVals, List.filterMap_cons]
      cases hbind : (assocGet? fs "id").bind idAsInt? with
      | some nv =>
        have hsplit : loadedIds (Json.obj fs :: rest) =
            nv :: loadedIds rest := by
          simp [loadedIds, List.filterMap_cons, hbind]
        rw [hsplit] at hv
        rcases List.mem_cons.mp hv with rfl | hv2
        · obtain ⟨w0, hw0, hwv⟩ := Option.bind_eq_some.mp hbind
          refine ⟨w0, ?_, hwv⟩
          rw [hvals]
          have : assocGetD fs "id" (Json.num 0) = w0 := by
            simp [assocGetD, hw0]
          rw [this]
          exact List.mem_cons_self _ _
        · obtain ⟨w, hw, hwv⟩ := ih hv2
          exact ⟨w, by rw [hvals]; exact List.mem_cons_of_mem _ hw, hwv⟩
      | none =>
        have hsplit : loadedIds (Json.obj fs :: rest) = loadedIds rest := by
          simp [loadedIds, List.filterMap_cons, hbind]
        rw [hsplit] at hv
        obtain ⟨w, hw, hwv⟩ := ih hv
        exact ⟨w, by rw [hvals]; exact List.mem_cons_of_mem _ hw, hwv⟩
    · have hobj2 : x.isObj = false := by
        cases hx : x.isObj
        · rfl
        · exact absurd hx hobj
      have h1 : loadedIds (x :: rest) = loadedIds rest := by
        cases x <;> simp [loadedIds, List.filterMap_cons] <;>
          simp [Json.isObj] at hobj2
      have h2 : idVals (x :: rest) = idVals rest := by
        cases x <;> simp [idVals, List.filterMap_cons] <;>
          simp [Json.isObj] at hobj2
      rw [h1] at hv
      obtain ⟨w, hw, hwv⟩ := ih hv
      exact ⟨w, by rw [h2]; exact hw, hwv⟩

lemma loadCounter_ge (items : List Json) (m : Int)
    (h : loadCounter items = some m) : ∀ v ∈ loadedIds items, v ≤ m := by
  intro v hv
  obtain ⟨w, hw, hwv⟩ := loadedIds_exists items v hv
  exact maxIdVals?_ge (idVals items) m h w hw v hwv

lemma create_item_invalid (s : ServerState) (c : String) (b : Body)
    (hval : validate_collection_name c = false) :
    create_item s c b = ⟨.invalidName, s, false⟩ := by
  unfold create_item
  rw [hval]
  rfl

lemma create_item_arr (s : ServerState) (c : String)
    (body : List (String × Json)) (items : List Json)
    (hval : validate_collection_name c = true)
    (hdb : assocGet? s.db c = some (.arr items)) :
    create_item s c (.json (.obj body)) =
      ⟨.created (.obj (assocSet body "id"
          (.num (assocGetD s.counters c 0 + 1)))),
       ⟨assocSet s.db c (.arr (items ++ [Json.obj (assocSet body "id"
          (.num (assocGetD s.counters c 0 + 1)))])),
        assocSet s.counters c (assocGetD s.counters c 0 + 1)⟩, true⟩ := by
  unfold create_item
  rw [hval, hdb]
  rfl

lemma delete_item_invalid (s : ServerState) (c : String) (i : Int)
    (hval : validate_collection_name c = false) :
    delete_item s c i = ⟨.invalidName, s, false⟩ := by
  unfold delete_item
  rw [hval]
  rfl

lemma delete_item_arr (s : ServerState) (c : String) (i : Int)
    (items : List Json) (hval : validate_collection_name c = true)
    (hdb : assocGet? s.db c = some (.arr items)) :
    delete_item s c i =
      match popFirst items i with
      | some (deleted, rest) =>
        ⟨.okItem deleted, ⟨assocSet s.db c (.arr rest), s.counters⟩, true⟩
      | none => ⟨.itemNotFound, s, false⟩ := by
  unfold delete_item
  rw [hval, hdb]
  rfl

lemma delete_item_preserves (s : ServerState) (c : String) (i : Int)
    (items : List Json) (hdb : assocGet? s.db c = some (.arr items)) :
    (delete_item s c i).state.counters = s.counters ∧
    ∃ ys, assocGet? (delete_item s c i).state.db c = some (.arr ys) := by
  cases hval : validate_collection_name c with
  | false =>
    rw [delete_item_invalid s c i hval]
    exact ⟨rfl, items, hdb⟩
  | true =>
    rw [delete_item_arr s c i items hval hdb]
    cases hpop : popFirst items i with
    | none => exact ⟨rfl, items, hdb⟩
    | some p =>
      obtain ⟨d, rest⟩ := p
      exact ⟨rfl, rest, assocGet?_assocSet_self _ _ _⟩

lemma runOps_spec (c : String) (ops : List ColOp) :
    ∀ (s : ServerState) (k : Int) (items : List Json),
      assocGet? s.counters c = some k →
      assocGet? s.db c = some (.arr items) →
      List.Chain' (· < ·) (runOps s c ops).2 ∧
      (∀ i ∈ (runOps s c ops).2, k < i) ∧
      (∀ j, ((runOps s c ops).2).head? = some j → j = k + 1) := by
  induction ops with
  | nil =>
    intro s k items _ _
    refine ⟨by simp [runOps], by simp [runOps], by simp [runOps]⟩
  | cons op rest ih =>
    intro s k items hk hdb
    cases op with
    | create body =>
      cases hval : validate_collection_name c with
      | false =>
        have hstep : applyColOp s c (ColOp.create body) = (s, none) := by
          show ((create_item s c (.json (.obj body))).state,
            match (create_item s c (.json (.obj body))).resp with
            | Resp.created (Json.obj fs) => (assocGet? fs "id").bind idAsInt?
            | _ => none) = (s, none)
          rw [create_item_invalid s c _ hval]
        have hrun : runOps s c (ColOp.create body :: rest) =
            ((runOps s c rest).1, (runOps s c rest).2) := by
          show ((runOps (applyColOp s c (ColOp.create body)).1 c rest).1,
            (applyColOp s c (ColOp.create body)).2.toList ++
              (runOps (applyColOp s c (ColOp.create body)).1 c rest).2) = _
          rw [hstep]
          rfl
        rw [hrun]
        exact ih s k items hk hdb
      | true =>
        have hgd : assocGetD s.counters c 0 = k := by
          simp [assocGetD, hk]
        have hc := create_item_arr s c body items hval hdb
        rw [hgd] at hc
        have hstep : applyColOp s c (ColOp.create body) =
            (⟨assocSet s.db c (.arr (items ++
                [Json.obj (assocSet body "id" (.num (k + 1)))])),
              assocSet s.counters c (k + 1)⟩, some (k + 1)) := by
          show ((create_item s c (.json (.obj body))).state,
            match (create_item s c (.json (.obj body))).resp with
            | Resp.created (Json.obj fs) => (assocGet? fs "id").bind idAsInt?
            | _ => none) = _
          rw [hc]
          show (_, (assocGet? (assocSet body "id" (Json.num (k + 1)))
            "id").bind idAsInt?) = _
          rw [assocGet?_assocSet_self]
          rfl
        have hrun : runOps s c (ColOp.create body :: rest) =
            ((runOps (⟨assocSet s.db c (.arr (items ++
                [Json.obj (assocSet body "id" (.num (k + 1)))])),
              assocSet s.counters c (k + 1)⟩ : ServerState) c rest).1,
             (k + 1) :: (runOps (⟨assocSet s.db c (.arr (items ++
                [Json.obj (assocSet body "id" (.num (k + 1)))])),
              assocSet s.counters c (k + 1)⟩ : ServerState) c rest).2) := by
          show ((runOps (applyColOp s c (ColOp.create body)).1 c rest).1,
            (applyColOp s c (ColOp.create body)).2.toList ++
              (runOps (applyColOp s c (ColOp.create body)).1 c rest).2) = _
          rw [hstep]
          rfl
        rw [hrun]
        obtain ⟨ih1, ih2, ih3⟩ := ih
          ⟨assocSet s.db c (.arr (items ++
            [Json.obj (assocSet body "id" (.num (k + 1)))])),
           assocSet s.counters c (k + 1)⟩ (k + 1)
          (items ++ [Json.obj (assocSet body "id" (.num (k + 1)))])
          (assocGet?_assocSet_self _ _ _) (assocGet?_assocSet_self _ _ _)
        refine ⟨?_, ?_, ?_⟩
        · rw [List.chain'_cons']
          exact ⟨fun y hy => ih2 y (List.mem_of_mem_head? hy), ih1⟩
        · intro i hi
          rcases List.mem_cons.mp hi with rfl | hi2
          · omega
          · have := ih2 i hi2
            omega
        · intro j hj
          simp at hj
          omega
    | delete i =>
      obtain ⟨hcnt, ys, hys⟩ := delete_item_preserves s c i items hdb
      have hrun : runOps s c (ColOp.delete i :: rest) =
          ((runOps (delete_item s c i).state c rest).1,
           (runOps (delete_item s c i).state c rest).2) := by
        show ((runOps (applyColOp s c (ColOp.delete i)).1 c rest).1,
          (applyColOp s c (ColOp.delete i)).2.toList ++
            (runOps (applyColOp s c (ColOp.delete i)).1 c rest).2) = _
        rfl
      rw [hrun]
      refine ih (delete_item s c i).state k ys ?_ hys
      rw [hcnt]
      exact hk

/-- Claim C1 amended: starting from a loaded single-collection document
whose counter came out as `m` (the maximum over each dict record's id,
a missing id counting as 0, default 0), every sequence of Create and
Delete operations assigns strictly increasing ids, each strictly greater
than `m` and than every id present at load time, and the first assigned
id is `m + 1`.  The amendment: the claim's formula `max(existing ids,
default 0) + 1` reads the missing-id records' contribution out of the
maximum, but `load_db` folds `i.get('id', 0)` into it, so a record
without an id floors the counter at 0. -/
theorem create_ids_monotone_amended (c : String) (items : List Json)
    (m : Int) (ops : List ColOp) (hm : loadCounter items = some m) :
    loadState [(c, Json.arr items)] = some (initState c items m) ∧
    List.Chain' (· < ·) (runOps (initState c items m) c ops).2 ∧
    (∀ i ∈ (runOps (initState c items m) c ops).2,
      m < i ∧ ∀ v ∈ loadedIds items, v < i) ∧
    (∀ j, ((runOps (initState c items m) c ops).2).head? = some j →
      j = m + 1) := by
  have hk : assocGet? (initState c items m).counters c = some m := by
    simp [initState, assocGet?]
  have hdb : assocGet? (initState c items m).db c = some (.arr items) := by
    simp [initState, assocGet?]
  obtain ⟨h1, h2, h3⟩ := runOps_spec c ops (initState c items m) m items hk hdb
  refine ⟨?_, h1, ?_, h3⟩
  · simp [loadState, initState, List.mapM, List.mapM.loop, hm]
  · intro i hi
    refine ⟨h2 i hi, fun v hv => ?_⟩
    exact lt_of_le_of_lt (loadCounter_ge items m hm v hv) (h2 i hi)

/-- The loaded collection of the first-id counterexample: one record with
id -5 and one record without an id. -/
def negItems : List Json := [.obj [("id", .num (-5))], .obj []]

/-- Claim C1's initialization formula fails on a record without an id
next to negative ids: `load_db` folds `i.get('id', 0)` into the maximum,
so the counter is 0 and the first Create assigns 1, while
`max(existing ids, default 0) + 1` is -4. -/
theorem first_id_formula_counterexample :
    loadState [("users", Json.arr negItems)] =
      some ⟨[("users", Json.arr negItems)], [("users", 0)]⟩ ∧
    (runOps ⟨[("users", Json.arr negItems)], [("users", 0)]⟩ "users"
      [ColOp.create []]).2 = [1] ∧
    specMaxExistingIdsDefault0 negItems + 1 = -4 ∧
    (1 : Int) ≠ -4 :=
  ⟨by rfl, by rfl, by rfl, by decide⟩

/-- Witness for the amended C1: two Creates after loading a collection
whose largest id is 2 assign the strictly increasing ids 3 and 4. -/
theorem create_ids_monotone_amended_witness :
    List.Chain' (· < ·)
      (runOps (initState "users" [Json.obj [("id", Json.num 2)]] 2) "users"
        [ColOp.create [], ColOp.create []]).2 :=
  (create_ids_monotone_amended "users" [Json.obj [("id", Json.num 2)]] 2
    [ColOp.create [], ColOp.create []] (by rfl)).2.1
